import Mathlib

/-!
# Universal Model Registry — formal embedding

A shallow embedding of the query/recommendation core of `registry.py`
(the Universal Model Registry MCP server).  The model table is an
association list from identifier to record, matching the insertion-ordered
Python dict `MODELS`; all operations are parameterised by the table.
Monetary amounts and recommendation scores are rationals.
-/

namespace UMR

/-- A model record, mirroring the dict schema of `models_data.MODELS`. -/
structure Model where
  id : String
  display_name : String
  provider : String
  status : String
  context_window : Nat
  max_output_tokens : Nat
  vision : Bool
  reasoning : Bool
  pricing_input : ℚ
  pricing_output : ℚ
  knowledge_cutoff : String
  release_date : String
  notes : String
deriving DecidableEq

/-- The registry table: an ordered association list, as the Python dict. -/
abbrev Table := List (String × Model)

/-- Test `listStarts n h`: true when `n` is an initial run of `h`. -/
def listStarts : List Char → List Char → Bool
  | [], _ => true
  | _ :: _, [] => false
  | a :: xs, b :: ys => a == b && listStarts xs ys

/-- Test `listIn n h`: true when `n` occurs contiguously inside `h`
(Python's `n in h` on strings, viewed as character lists). -/
def listIn : List Char → List Char → Bool
  | n, [] => listStarts n []
  | n, h :: t => listStarts n (h :: t) || listIn n t

/-- Python's `needle in hay` substring test. -/
def strIn (needle hay : String) : Bool :=
  listIn needle.data hay.data

/-- Python's `s.lower()` (the registry's identifiers and filter values are
ASCII, where `Char.toLower` agrees with it). -/
def sLower (s : String) : String :=
  ⟨s.data.map Char.toLower⟩

/-- Digit grouping for a reversed digit list (groups of three). -/
def group3 : List Char → List Char
  | a :: b :: c :: d :: rest => a :: b :: c :: ',' :: group3 (d :: rest)
  | l => l

/-- Python's `f"{n:,}"` thousands-grouped rendering of a natural number. -/
def commaSep (n : Nat) : String :=
  ⟨(group3 (toString n).data.reverse).reverse⟩

/-- Python's `f"{q:.2f}"` two-decimal rendering of a rational amount. -/
def fmt2 (q : ℚ) : String :=
  let n : ℤ := round (q * 100)
  let sign := if n < 0 then "-" else ""
  let a := n.natAbs
  let ip := a / 100
  let fp := a % 100
  let fps := if fp < 10 then "0" ++ toString fp else toString fp
  sign ++ toString ip ++ "." ++ fps

/-- Python's `<=` on strings: code-point lexicographic comparison. -/
def charListLe : List Char → List Char → Bool
  | [], _ => true
  | _ :: _, [] => false
  | a :: xs, b :: ys =>
    if a.toNat < b.toNat then true
    else if b.toNat < a.toNat then false
    else charListLe xs ys

/-- Python's `a <= b` on strings. -/
def strLe (a b : String) : Bool :=
  charListLe a.data b.data

/-- Python's `sorted(keys)`: ascending lexicographic sort of strings. -/
def sortStrings (l : List String) : List String :=
  l.mergeSort strLe

-- ── Presentation layer (`_format_table`, `_model_detail`) ────────────────

/-- Renderer `_format_table`: markdown table over a list of records. -/
def formatTable (models : List Model) : String :=
  if models = [] then "No models found matching the criteria."
  else
    let header :=
      "| Model ID | Display Name | Provider | Status | Context | Input $/1M | Output $/1M |"
    let sep :=
      "|----------|-------------|----------|--------|---------|-----------|-------------|"
    let rows := models.map fun m =>
      let ctx := commaSep m.context_window
      let pin := fmt2 m.pricing_input
      let pout := fmt2 m.pricing_output
      s!"| {m.id} | {m.display_name} | {m.provider} | {m.status} | {ctx} | ${pin} | ${pout} |"
    String.intercalate "\n" (header :: sep :: rows)

/-- Renderer `_model_detail`: full markdown spec sheet for one record. -/
def modelDetail (m : Model) : String :=
  let caps := (if m.vision then ["Vision"] else []) ++
    (if m.reasoning then ["Reasoning/Thinking"] else [])
  let capsStr := if caps = [] then "None" else String.intercalate ", " caps
  let ctx := commaSep m.context_window
  let mout := commaSep m.max_output_tokens
  let pin := fmt2 m.pricing_input
  let pout := fmt2 m.pricing_output
  let notesStr := if m.notes = "" then "—" else m.notes
  s!"## {m.display_name} (`{m.id}`)\n\n| Field | Value |\n|-------|-------|\n| Provider | {m.provider} |\n| Status | **{m.status}** |\n| Context Window | {ctx} tokens |\n| Max Output | {mout} tokens |\n| Capabilities | {capsStr} |\n| Pricing (input) | ${pin} / 1M tokens |\n| Pricing (output) | ${pout} / 1M tokens |\n| Knowledge Cutoff | {m.knowledge_cutoff} |\n| Release Date | {m.release_date} |\n| Notes | {notesStr} |"

-- ── Identifier resolver ──────────────────────────────────────────────────

/-- Lookup `MODELS.get(model_id)`: exact (byte-for-byte) key lookup. -/
def lookupExact : Table → String → Option Model
  | [], _ => none
  | (k, m) :: rest, q => if k = q then some m else lookupExact rest q

/-- The fallback loop of `get_model_info`/`check_model_status`: first key in
table order whose lowercasing equals, or contains as a substring, the
lowered query. -/
def resolveLoop (ql : String) : Table → Option Model
  | [] => none
  | (k, m) :: rest =>
    if (sLower k == ql || strIn ql (sLower k)) then some m
    else resolveLoop ql rest

/-- The identifier resolver shared by `get_model_info` and
`check_model_status`: exact lookup, then the case-insensitive /
substring loop. -/
def resolve (t : Table) (q : String) : Option Model :=
  match lookupExact t q with
  | some m => some m
  | none => resolveLoop (sLower q) t

-- ── list_models ──────────────────────────────────────────────────────────

/-- Python truthiness on an optional string argument: the filter body runs
only when the argument is present and non-empty. -/
def applyOpt (o : Option String) (f : String → List Model → List Model)
    (l : List Model) : List Model :=
  match o with
  | none => l
  | some s => if s = "" then l else f s l

/-- Tool `list_models`: optional provider/status/capability filters, then table
rendering. -/
def listModels (t : Table) (provider status capability : Option String) :
    String :=
  let results := t.map Prod.snd
  let results := applyOpt provider
    (fun p l => l.filter fun m => sLower m.provider == sLower p) results
  let results := applyOpt status
    (fun s l => l.filter fun m => sLower m.status == sLower s) results
  let results := applyOpt capability
    (fun c l =>
      let cl := sLower c
      if cl = "vision" then l.filter fun m => m.vision
      else if cl = "reasoning" ∨ cl = "thinking" then
        l.filter fun m => m.reasoning
      else l) results
  formatTable results

-- ── get_model_info ───────────────────────────────────────────────────────

/-- Message of `get_model_info` on failure: query echoed, known identifiers
listed ascending (`", ".join(sorted(MODELS.keys()))`). -/
def infoNotFound (t : Table) (model_id : String) : String :=
  let known := String.intercalate ", " (sortStrings (t.map Prod.fst))
  s!"Model `{model_id}` not found in registry.\n\nKnown models: {known}"

/-- Tool `get_model_info`: resolve, then detail sheet or not-found message. -/
def getModelInfo (t : Table) (model_id : String) : String :=
  match resolve t model_id with
  | some m => modelDetail m
  | none => infoNotFound t model_id

-- ── check_model_status ───────────────────────────────────────────────────

/-- Message of `check_model_status` on failure (no identifier listing). -/
def statusNotFound (model_id : String) : String :=
  s!"`{model_id}` is **not found** in the registry. It may be misspelled, very old, or not yet tracked."

/-- The found branch of `check_model_status`: status line, replacement
suggestion for legacy/deprecated records, optional notes. -/
def statusDetail (t : Table) (m : Model) : String :=
  let result := s!"**{m.display_name}** (`{m.id}`): status = **{m.status}**"
  let result :=
    if m.status = "legacy" ∨ m.status = "deprecated" then
      let replacements := (t.map Prod.snd).filter fun r =>
        r.provider == m.provider && r.status == "current"
      let sorted := replacements.mergeSort fun a b =>
        decide (|a.pricing_input - m.pricing_input| ≤
          |b.pricing_input - m.pricing_input|)
      match sorted with
      | r :: _ =>
        result ++ s!"\n\nRecommended replacement: **{r.display_name}** (`{r.id}`)"
      | [] => result
    else result
  if m.notes ≠ "" then result ++ s!"\n\nNote: {m.notes}" else result

/-- Tool `check_model_status`: resolve, then status text or not-found message. -/
def checkModelStatus (t : Table) (model_id : String) : String :=
  match resolve t model_id with
  | some m => statusDetail t m
  | none => statusNotFound model_id

-- ── recommend_model ──────────────────────────────────────────────────────

/-- Python's `(budget or "moderate")`: truthiness default for the optional
budget argument. -/
def orModerate : Option String → String
  | none => "moderate"
  | some s => if s = "" then "moderate" else s

/-- Coding keyword test: `"coding" in task_lower or "code" in task_lower`. -/
def taskHasCoding (tl : String) : Bool :=
  strIn "coding" tl || strIn "code" tl

/-- Vision keyword test: `"vision" in task_lower or "image" in task_lower`. -/
def taskHasVision (tl : String) : Bool :=
  strIn "vision" tl || strIn "image" tl

/-- Reasoning keyword test over `"reason"`, `"think"`, `"math"`. -/
def taskHasReason (tl : String) : Bool :=
  strIn "reason" tl || strIn "think" tl || strIn "math" tl

/-- Long-context keyword test over `"long context"`, `"large document"`. -/
def taskHasLongCtx (tl : String) : Bool :=
  strIn "long context" tl || strIn "large document" tl

/-- Cost keyword test over `"cheap"`, `"batch"`, `"cost"`. -/
def taskHasCheap (tl : String) : Bool :=
  strIn "cheap" tl || strIn "batch" tl || strIn "cost" tl

/-- Coding signal: `+3` for the reasoning flag, `+1` for a context window
of at least 200,000, when the task mentions coding. -/
def codingPart (tl : String) (m : Model) : ℚ :=
  if taskHasCoding tl then
    (if m.reasoning then 3 else 0) +
      (if m.context_window ≥ 200000 then 1 else 0)
  else 0

/-- Vision signal: `+4` with the vision flag, `-10` without, when the task
mentions vision or images. -/
def visionPart (tl : String) (m : Model) : ℚ :=
  if taskHasVision tl then (if m.vision then 4 else -10) else 0

/-- Reasoning signal: `+5` for the reasoning flag. -/
def reasonPart (tl : String) (m : Model) : ℚ :=
  if taskHasReason tl then (if m.reasoning then 5 else 0) else 0

/-- Long-context signal: `+4` at one million tokens of context, else `+2`
at 200,000. -/
def longCtxPart (tl : String) (m : Model) : ℚ :=
  if taskHasLongCtx tl then
    if m.context_window ≥ 1000000 then 4
    else if m.context_window ≥ 200000 then 2
    else 0
  else 0

/-- Cost signal: `+ max(0, 5 - pricing_input)`. -/
def cheapPart (tl : String) (m : Model) : ℚ :=
  if taskHasCheap tl then max 0 (5 - m.pricing_input) else 0

/-- Budget modifier: `"cheap"` rewards low price and penalises price > 5;
`"unlimited"` rewards price capped at 5; anything else is neutral. -/
def budgetPart (nb : String) (m : Model) : ℚ :=
  if nb = "cheap" then
    max 0 (3 - m.pricing_input) + (if m.pricing_input > 5 then -5 else 0)
  else if nb = "unlimited" then min m.pricing_input 5
  else 0

/-- Universal quality prior: `+ min(pricing_input * 0.3, 2)`. -/
def universalPart (m : Model) : ℚ :=
  min (m.pricing_input * (3 / 10)) 2

/-- Total score of one candidate for lowered task `tl` and normalized
budget `nb` — the sum the sequential `score +=` statements accumulate. -/
def score (tl nb : String) (m : Model) : ℚ :=
  codingPart tl m + visionPart tl m + reasonPart tl m + longCtxPart tl m +
    cheapPart tl m + budgetPart nb m + universalPart m

/-- Every signal of `score` except the coding one. -/
def scoreOther (tl nb : String) (m : Model) : ℚ :=
  visionPart tl m + reasonPart tl m + longCtxPart tl m +
    cheapPart tl m + budgetPart nb m + universalPart m

/-- The `current`-status candidate pool of `recommend_model`. -/
def currentModels (t : Table) : List Model :=
  (t.map Prod.snd).filter fun m => m.status == "current"

/-- All candidates paired with their scores, in table order. -/
def scoredList (t : Table) (tl nb : String) : List (ℚ × Model) :=
  (currentModels t).map fun m => (score tl nb m, m)

/-- The ranked, truncated recommendation list: stable descending sort by
score, then the top 3 (`scored.sort(reverse=True); scored[:3]`). -/
def recommendTop (t : Table) (task : String) (budget : Option String) :
    List (ℚ × Model) :=
  let nb := sLower (orModerate budget)
  let tl := sLower task
  ((scoredList t tl nb).mergeSort fun a b => decide (b.1 ≤ a.1)).take 3

/-- One numbered recommendation block. -/
def renderRecEntry : Nat × (ℚ × Model) → String
  | (i, (_, m)) =>
    let caps := (if m.vision then ["vision"] else []) ++
      (if m.reasoning then ["reasoning"] else [])
    let capStr := if caps = [] then "standard" else String.intercalate ", " caps
    let pin := fmt2 m.pricing_input
    let pout := fmt2 m.pricing_output
    let ctx := commaSep m.context_window
    s!"{i}. **{m.display_name}** (`{m.id}`)\n   - Provider: {m.provider} | Capabilities: {capStr}\n   - Pricing: ${pin} / ${pout} per 1M tokens\n   - Context: {ctx} tokens\n"

/-- The rendered recommendation text: header, budget line, blank line,
then one numbered block per ranked entry. -/
def renderRecs (task nb : String) (top : List (ℚ × Model)) : String :=
  let lines := [s!"## Recommendations for: *{task}*", s!"**Budget:** {nb}", ""]
    ++ (top.enumFrom 1).map renderRecEntry
  String.intercalate "\n" lines

/-- Tool `recommend_model`: score the current records, rank, truncate, render. -/
def recommendModel (t : Table) (task : String) (budget : Option String) :
    String :=
  renderRecs task (sLower (orModerate budget)) (recommendTop t task budget)

-- ── compare_models ───────────────────────────────────────────────────────

/-- Resolve a list of identifiers, short-circuiting on the first failure
with the offending query. -/
def resolveAll (t : Table) : List String → Except String (List Model)
  | [] => .ok []
  | q :: rest =>
    match resolve t q with
    | none => .error q
    | some m =>
      match resolveAll t rest with
      | .error e => .error e
      | .ok ms => .ok (m :: ms)

/-- Modelled from the spec: the side-by-side comparison body of
`compare_models`, whose definition is absent from the sources in scope
(only its tests and the spec describe the operation). -/
def renderComparison (ms : List Model) : String :=
  let header := "| Field | " ++
    String.intercalate " | " (ms.map fun m => m.display_name) ++ " |"
  let providers := "| Provider | " ++
    String.intercalate " | " (ms.map fun m => m.provider) ++ " |"
  let statuses := "| Status | " ++
    String.intercalate " | " (ms.map fun m => m.status) ++ " |"
  String.intercalate "\n" [header, providers, statuses]

/-- Modelled from the spec: `compare_models` is part of the registry's
public surface but its definition is absent from the sources in scope.
Per the spec it requires at least 2 identifiers (returning a fixed
message, not an exception, otherwise), silently keeps only the first 5,
and short-circuits on any unresolved identifier with a not-found message
naming it. -/
def compareModels (t : Table) (ids : List String) : String :=
  if ids.length < 2 then
    "Error: at least 2 models required for comparison."
  else
    match resolveAll t (ids.take 5) with
    | .error q => s!"Model `{q}` not found in registry."
    | .ok ms => renderComparison ms

-- ── Concrete sample data ─────────────────────────────────────────────────

/-- A minimal well-formed record used to build concrete test tables. -/
def baseModel : Model :=
  { id := "m", display_name := "M", provider := "P", status := "current",
    context_window := 1000, max_output_tokens := 100, vision := false,
    reasoning := false, pricing_input := 0, pricing_output := 0,
    knowledge_cutoff := "2024-01", release_date := "2024-02", notes := "" }

/-- A record keyed `gpt-5-turbo`, placed before `gpt-5` in its table. -/
def mTurbo : Model := { baseModel with id := "gpt-5-turbo", display_name := "Turbo" }

/-- A record keyed `gpt-5`. -/
def mPlain : Model := { baseModel with id := "gpt-5", display_name := "Plain" }

/-- A two-entry table where a substring-matching key comes before a
case-insensitively exact one. -/
def tableTiers : Table := [("gpt-5-turbo", mTurbo), ("gpt-5", mPlain)]

/-- A record keyed `ka`. -/
def mKa : Model := { baseModel with id := "ka", display_name := "KA" }

/-- A record keyed `kb`. -/
def mKb : Model := { baseModel with id := "kb", display_name := "KB" }

/-- A two-entry table whose insertion order is the reverse of sorted
order. -/
def tableRev : Table := [("kb", mKb), ("ka", mKa)]

/-- A current vision-flagged record: pricey, small context, no reasoning. -/
def mVis : Model :=
  { baseModel with
    id := "vis"
    display_name := "Vis"
    vision := true
    context_window := 1000
    pricing_input := 10 }

/-- A current non-vision record: free, huge context, reasoning-flagged. -/
def mNoVis : Model :=
  { baseModel with
    id := "novis"
    display_name := "NoVis"
    vision := false
    reasoning := true
    context_window := 1000000
    pricing_input := 0 }

/-- A table holding one vision and one non-vision current record. -/
def tableVision : Table := [("vis", mVis), ("novis", mNoVis)]

/-- Variant of `tableVision` with the non-vision record first in table order. -/
def tableVisionCx : Table := [("novis", mNoVis), ("vis", mVis)]

-- ── Helper lemmas ────────────────────────────────────────────────────────

theorem listIn_nil (l : List Char) : listIn [] l = true := by
  cases l <;> simp [listIn, listStarts]

theorem strIn_nil (s : String) : strIn "" s = true := by
  simpa [strIn] using listIn_nil s.data

theorem lookupExact_none (t : Table) (q : String)
    (h : ∀ p ∈ t, p.1 ≠ q) : lookupExact t q = none := by
  induction t with
  | nil => rfl
  | cons p rest ih =>
    have hp : p.1 ≠ q := h p (by simp)
    simp only [lookupExact, if_neg hp]
    exact ih fun p' hp' => h p' (by simp [hp'])

theorem resolveLoop_first (ql k : String) (m : Model) (t1 t2 : Table)
    (hbefore : ∀ p ∈ t1, (sLower p.1 == ql || strIn ql (sLower p.1)) = false)
    (hk : (sLower k == ql || strIn ql (sLower k)) = true) :
    resolveLoop ql (t1 ++ (k, m) :: t2) = some m := by
  induction t1 with
  | nil => simp [resolveLoop, hk]
  | cons p rest ih =>
    have hp := hbefore p (by simp)
    simp only [List.cons_append, resolveLoop, hp, Bool.false_eq_true,
      if_false]
    exact ih fun p' hp' => hbefore p' (by simp [hp'])

-- ── Claims ───────────────────────────────────────────────────────────────

/-- C2: `compare_models` on fewer than 2 identifiers returns the fixed
"at least 2 models required" message (modelled from the spec, since the
operation's body is not among the sources in scope). -/
theorem compare_requires_two (t : Table) (ids : List String)
    (h : ids.length < 2) :
    compareModels t ids = "Error: at least 2 models required for comparison." := by
  simp [compareModels, h]

/-- Witness for C2 at the empty identifier list. -/
theorem compare_requires_two_witness :
    ([] : List String).length < 2 ∧
      compareModels [] [] = "Error: at least 2 models required for comparison." :=
  ⟨by decide, compare_requires_two [] [] (by decide)⟩

/-- C9: empty-string provider/status/capability arguments are treated as
absent, so `list_models("", "", "")` renders exactly the full table, in
table order, as the unfiltered call does. -/
theorem listModels_empty_filters (t : Table) :
    listModels t (some "") (some "") (some "") = listModels t none none none ∧
      listModels t none none none = formatTable (t.map Prod.snd) := by
  constructor <;> rfl

/-- C10: `recommend_model` applies no minimum-score threshold — the ranked
list always has exactly `min 3 (number of current records)` entries. -/
theorem recommendTop_length (t : Table) (task : String)
    (budget : Option String) :
    (recommendTop t task budget).length = min 3 (currentModels t).length := by
  simp [recommendTop, scoredList]

/-- C5: `recommend_model` returns at most 3 ranked entries, and every
entry's record has status `current`. -/
theorem recommendTop_le_three_current (t : Table) (task : String)
    (budget : Option String) :
    (recommendTop t task budget).length ≤ 3 ∧
      (recommendTop t task budget).all (fun e => e.2.status == "current") = true := by
  refine ⟨?_, ?_⟩
  · exact List.length_take_le 3
      ((scoredList t (sLower task) (sLower (orModerate budget))).mergeSort
        fun a b => decide (b.1 ≤ a.1))
  · rw [List.all_eq_true]
    intro e he
    simp only [recommendTop] at he
    have h1 := List.take_subset _ _ he
    rw [List.mem_mergeSort] at h1
    simp only [scoredList, List.mem_map] at h1
    obtain ⟨m, hm, rfl⟩ := h1
    simp only [currentModels, List.mem_filter] at hm
    exact hm.2

/-- C7: when the task mentions coding, the coding signal contributes
exactly `3` for the reasoning flag plus `1` for a context window of at
least 200,000, on top of the remaining signals. -/
theorem coding_signal (task nb : String) (m : Model)
    (h : taskHasCoding (sLower task) = true) :
    score (sLower task) nb m =
      scoreOther (sLower task) nb m +
        ((if m.reasoning then (3 : ℚ) else 0) +
          (if m.context_window ≥ 200000 then (1 : ℚ) else 0)) := by
  simp only [score, scoreOther, codingPart, h, if_true]
  ring

/-- Witness for C7 at the task `"code"` on a reasoning-flagged record. -/
theorem coding_signal_witness :
    taskHasCoding (sLower "code") = true ∧
      score (sLower "code") "moderate" baseModel =
        scoreOther (sLower "code") "moderate" baseModel +
          ((if baseModel.reasoning then (3 : ℚ) else 0) +
            (if baseModel.context_window ≥ 200000 then (1 : ℚ) else 0)) :=
  ⟨by decide, coding_signal "code" "moderate" baseModel (by decide)⟩

/-- C4: every public operation is total over string inputs — each returns
one of its documented renderable text results for every argument. -/
theorem operations_total (t : Table) (prov st cap : Option String)
    (mid task : String) (budget : Option String) :
    (∃ l, listModels t prov st cap = formatTable l) ∧
      ((∃ m, getModelInfo t mid = modelDetail m) ∨
        getModelInfo t mid = infoNotFound t mid) ∧
      (∃ top, recommendModel t task budget =
        renderRecs task (sLower (orModerate budget)) top) ∧
      ((∃ m, checkModelStatus t mid = statusDetail t m) ∨
        checkModelStatus t mid = statusNotFound mid) := by
  refine ⟨⟨_, rfl⟩, ?_, ⟨_, rfl⟩, ?_⟩
  · cases h : resolve t mid with
    | some m => exact Or.inl ⟨m, by simp [getModelInfo, h]⟩
    | none => exact Or.inr (by simp [getModelInfo, h])
  · cases h : resolve t mid with
    | some m => exact Or.inl ⟨m, by simp [checkModelStatus, h]⟩
    | none => exact Or.inr (by simp [checkModelStatus, h])

/-- A stable merge sort of a two-element list compares the pair once. -/
theorem mergeSort_pair {α : Type} (le : α → α → Bool) (a b : α) :
    List.mergeSort [a, b] le = if le a b then [a, b] else [b, a] := by
  rw [List.mergeSort]
  by_cases h : le a b <;> simp [List.splitInTwo, List.mergeSort, List.merge, h]

/-- C1 counterexample: in `tableTiers` the key `gpt-5` matches the query
`GPT-5` case-insensitively exactly, yet the resolver returns the record of
the earlier key `gpt-5-turbo`, which only substring-matches — the
case-insensitive and substring tiers are fused into one pass, not applied
in strict priority order. -/
theorem tier_priority_counterexample :
    ("gpt-5", mPlain) ∈ tableTiers ∧
      sLower "gpt-5" = sLower "GPT-5" ∧
      resolve tableTiers "GPT-5" = some mTurbo ∧
      mTurbo ≠ mPlain := by
  refine ⟨by decide, by decide, by decide, by decide⟩

/-- C1 amended: after the exact tier fails, the resolver makes a single
pass over keys in table order and returns the first key matching either
case-insensitively exactly or by substring; in particular a
case-insensitive exact match is returned whenever no earlier key matches
in either way. -/
theorem resolver_single_pass (t1 t2 : Table) (q k : String) (m : Model)
    (hex : lookupExact (t1 ++ (k, m) :: t2) q = none)
    (hbefore : ∀ p ∈ t1,
      (sLower p.1 == sLower q || strIn (sLower q) (sLower p.1)) = false)
    (hk : sLower k = sLower q) :
    resolve (t1 ++ (k, m) :: t2) q = some m := by
  have hk' : (sLower k == sLower q || strIn (sLower q) (sLower k)) = true := by
    simp [hk]
  unfold resolve
  rw [hex]
  exact resolveLoop_first (sLower q) k m t1 t2 hbefore hk'

/-- Witness for the amended C1: the ci-exact key `gpt-5` wins for query
`GPT-5` when the earlier key matches neither way. -/
theorem resolver_single_pass_witness :
    resolve ([("zzz", mTurbo)] ++ ("gpt-5", mPlain) :: []) "GPT-5" =
      some mPlain :=
  resolver_single_pass [("zzz", mTurbo)] [] "GPT-5" "gpt-5" mPlain
    (by decide) (by decide) (by decide)

/-- C3 counterexample: on `tableRev` (insertion order `kb, ka`) a failed
query's `get_model_info` message lists the identifiers ascending
(`ka, kb`), not in table order (`kb, ka`), and `check_model_status`'s
not-found message names no identifier at all. -/
theorem notfound_listing_counterexample :
    resolve tableRev "zzz" = none ∧
      strIn "kb, ka" (getModelInfo tableRev "zzz") = false ∧
      strIn "ka, kb" (getModelInfo tableRev "zzz") = true ∧
      strIn "ka" (checkModelStatus tableRev "zzz") = false ∧
      strIn "kb" (checkModelStatus tableRev "zzz") = false := by
  have hres : resolve tableRev "zzz" = none := by decide
  have hss : sortStrings (tableRev.map Prod.fst) = ["ka", "kb"] := by
    rw [show tableRev.map Prod.fst = ["kb", "ka"] from by decide,
      sortStrings, mergeSort_pair]
    decide
  have hinfo : getModelInfo tableRev "zzz" =
      "Model `zzz` not found in registry.\n\nKnown models: ka, kb" := by
    unfold getModelInfo
    rw [hres]
    unfold infoNotFound
    rw [hss]
    rfl
  have hst : checkModelStatus tableRev "zzz" = statusNotFound "zzz" := by
    unfold checkModelStatus
    rw [hres]
  rw [hinfo, hst]
  refine ⟨hres, by decide, by decide, by decide, by decide⟩

/-- C3 amended: on resolution failure `get_model_info` returns the
not-found message listing known identifiers in ascending sorted order,
and `check_model_status` returns its fixed not-found message that lists
no identifiers. -/
theorem notfound_messages (t : Table) (q : String)
    (h : resolve t q = none) :
    getModelInfo t q = infoNotFound t q ∧
      checkModelStatus t q = statusNotFound q := by
  constructor
  · unfold getModelInfo
    rw [h]
  · unfold checkModelStatus
    rw [h]

/-- Witness for the amended C3 at `tableRev` and the failing query
`zzz`. -/
theorem notfound_messages_witness :
    getModelInfo tableRev "zzz" = infoNotFound tableRev "zzz" ∧
      checkModelStatus tableRev "zzz" = statusNotFound "zzz" :=
  notfound_messages tableRev "zzz" (by decide)

/-- C8: an empty query falls through the exact tier (no key is empty),
substring-matches the first key, and both operations render the first
record of the table. -/
theorem empty_query_first (k : String) (m : Model) (rest : Table)
    (hne : ∀ p ∈ (k, m) :: rest, p.1 ≠ "") :
    getModelInfo ((k, m) :: rest) "" = modelDetail m ∧
      checkModelStatus ((k, m) :: rest) "" =
        statusDetail ((k, m) :: rest) m := by
  have hres : resolve ((k, m) :: rest) "" = some m := by
    unfold resolve
    rw [lookupExact_none _ _ hne]
    show resolveLoop (sLower "") ((k, m) :: rest) = some m
    rw [show sLower "" = "" from rfl]
    unfold resolveLoop
    rw [show (sLower k == "" || strIn "" (sLower k)) = true from by
      simp [strIn_nil]]
    rfl
  constructor
  · unfold getModelInfo
    rw [hres]
  · unfold checkModelStatus
    rw [hres]

/-- Witness for C8 on a one-record table. -/
theorem empty_query_first_witness :
    getModelInfo [("alpha", baseModel)] "" = modelDetail baseModel ∧
      checkModelStatus [("alpha", baseModel)] "" =
        statusDetail [("alpha", baseModel)] baseModel :=
  empty_query_first "alpha" baseModel [] (by decide)

/-- When only the vision signal of the task fires, a vision-flagged record
outscores every non-vision record, for every budget, given non-negative
pricing. -/
theorem score_vision_gt (tl nb : String) (mv mn : Model)
    (hv : taskHasVision tl = true) (hc : taskHasCoding tl = false)
    (hr : taskHasReason tl = false) (hl : taskHasLongCtx tl = false)
    (hch : taskHasCheap tl = false)
    (hpv : 0 ≤ mv.pricing_input) (hpn : 0 ≤ mn.pricing_input)
    (hmv : mv.vision = true) (hmn : mn.vision = false) :
    score tl nb mn < score tl nb mv := by
  have hUv0 : 0 ≤ universalPart mv :=
    le_min (mul_nonneg hpv (by norm_num)) (by norm_num)
  have hUn0 : 0 ≤ universalPart mn :=
    le_min (mul_nonneg hpn (by norm_num)) (by norm_num)
  have hUn2 : universalPart mn ≤ 2 := min_le_right _ _
  simp only [score, codingPart, visionPart, reasonPart, longCtxPart,
    cheapPart, hv, hc, hr, hl, hch, hmv, hmn, Bool.false_eq_true, if_true,
    if_false, ite_true, ite_false]
  unfold budgetPart
  by_cases h1 : nb = "cheap"
  · simp only [h1, ite_true, if_pos rfl]
    have hmaxv : (0 : ℚ) ≤ max 0 (3 - mv.pricing_input) := le_max_left _ _
    have hmaxn : max 0 (3 - mn.pricing_input) ≤ 3 :=
      max_le (by norm_num) (by linarith)
    have hiten : (if mn.pricing_input > 5 then (-5 : ℚ) else 0) ≤ 0 := by
      split <;> norm_num
    by_cases h2 : mv.pricing_input > 5
    · have hUv : (3 : ℚ) / 2 ≤ universalPart mv :=
        le_min (by nlinarith) (by norm_num)
      rw [if_pos h2]
      linarith
    · rw [if_neg h2]
      linarith
  · rw [if_neg h1, if_neg h1]
    by_cases h2 : nb = "unlimited"
    · rw [if_pos h2, if_pos h2]
      have ha : min mn.pricing_input 5 ≤ 5 := min_le_right _ _
      have hb : (0 : ℚ) ≤ min mv.pricing_input 5 :=
        le_min hpv (by norm_num)
      linarith
    · rw [if_neg h2, if_neg h2]
      linarith

/-- C6 amended: for a task whose lowered text triggers the vision signal
and none of the other keyword signals, and for every budget, the ranked
output never places a non-vision record above a vision-flagged one
(pricing assumed non-negative, as the data invariants guarantee). -/
theorem vision_tasks_rank_vision_first (t : Table) (task : String)
    (budget : Option String)
    (hv : taskHasVision (sLower task) = true)
    (hc : taskHasCoding (sLower task) = false)
    (hr : taskHasReason (sLower task) = false)
    (hl : taskHasLongCtx (sLower task) = false)
    (hch : taskHasCheap (sLower task) = false)
    (hp : ∀ p ∈ t, 0 ≤ p.2.pricing_input) :
    (recommendTop t task budget).Pairwise
      (fun a b => b.2.vision = true → a.2.vision = true) := by
  have hchar : ∀ x ∈ recommendTop t task budget,
      x.1 = score (sLower task) (sLower (orModerate budget)) x.2 ∧
        0 ≤ x.2.pricing_input := by
    intro x hx
    simp only [recommendTop] at hx
    have h1 := List.take_subset _ _ hx
    rw [List.mem_mergeSort] at h1
    simp only [scoredList, List.mem_map] at h1
    obtain ⟨m, hm, rfl⟩ := h1
    simp only [currentModels, List.mem_filter, List.mem_map] at hm
    obtain ⟨⟨pr, hpr, rfl⟩, _⟩ := hm
    exact ⟨rfl, hp pr hpr⟩
  have hsorted : ((scoredList t (sLower task)
      (sLower (orModerate budget))).mergeSort
      (fun a b => decide (b.1 ≤ a.1))).Pairwise
      (fun a b => decide (b.1 ≤ a.1) = true) := by
    apply List.sorted_mergeSort
    · intro a b c h1 h2
      simp only [decide_eq_true_eq] at *
      linarith
    · intro a b
      simp only [Bool.or_eq_true, decide_eq_true_eq]
      exact le_total b.1 a.1
  have htake : (recommendTop t task budget).Pairwise
      (fun a b => decide (b.1 ≤ a.1) = true) := by
    have hsub : List.Sublist (recommendTop t task budget)
        ((scoredList t (sLower task)
          (sLower (orModerate budget))).mergeSort
          (fun a b => decide (b.1 ≤ a.1))) := by
      simp only [recommendTop]
      exact List.take_sublist 3 _
    exact hsorted.sublist hsub
  refine List.Pairwise.imp_of_mem ?_ htake
  intro a b ha hb hab hbv
  by_contra hav
  have hav' : a.2.vision = false := by
    rwa [Bool.not_eq_true] at hav
  obtain ⟨ha1, hpa⟩ := hchar a ha
  obtain ⟨hb1, hpb⟩ := hchar b hb
  rw [decide_eq_true_eq] at hab
  have hlt : score (sLower task) (sLower (orModerate budget)) a.2 <
      score (sLower task) (sLower (orModerate budget)) b.2 :=
    score_vision_gt _ _ b.2 a.2 hv hc hr hl hch hpb hpa hbv hav'
  rw [ha1, hb1] at hab
  linarith

/-- Witness for the amended C6: on `tableVision` with the plain task
`vision`, the ranking never puts a non-vision record above a
vision-flagged one. -/
theorem vision_tasks_rank_vision_first_witness :
    (recommendTop tableVision "vision" none).Pairwise
      (fun a b => b.2.vision = true → a.2.vision = true) :=
  vision_tasks_rank_vision_first tableVision "vision" none
    (by decide) (by decide) (by decide) (by decide) (by decide) (by decide)

/-- The budget modifier vanishes under the default `moderate` budget. -/
theorem budgetPart_moderate (m : Model) : budgetPart "moderate" m = 0 := by
  unfold budgetPart
  rw [if_neg (by decide), if_neg (by decide)]

/-- C6 counterexample: on the task
`vision code reasoning long context cheap batch` the other keyword
signals outweigh the vision differential — the non-vision record scores
8, the vision record only 6, so the ranking puts the non-vision record
strictly above the vision one even though a current vision record
exists. -/
theorem vision_rank_counterexample :
    mVis.vision = true ∧ mVis.status = "current" ∧
      mNoVis.vision = false ∧ mNoVis.status = "current" ∧
      recommendTop tableVisionCx
        "vision code reasoning long context cheap batch" (some "moderate") =
        [(8, mNoVis), (6, mVis)] := by
  refine ⟨by decide, by decide, by decide, by decide, ?_⟩
  have htl : sLower "vision code reasoning long context cheap batch" =
      "vision code reasoning long context cheap batch" := by decide
  have hnb : sLower (orModerate (some "moderate")) = "moderate" := by decide
  have hv : taskHasVision "vision code reasoning long context cheap batch"
      = true := by decide
  have hc : taskHasCoding "vision code reasoning long context cheap batch"
      = true := by decide
  have hr : taskHasReason "vision code reasoning long context cheap batch"
      = true := by decide
  have hl : taskHasLongCtx "vision code reasoning long context cheap batch"
      = true := by decide
  have hch : taskHasCheap "vision code reasoning long context cheap batch"
      = true := by decide
  have hsv : score "vision code reasoning long context cheap batch"
      "moderate" mVis = 6 := by
    simp only [score, codingPart, visionPart, reasonPart, longCtxPart,
      cheapPart, universalPart, budgetPart_moderate, hv, hc, hr, hl, hch,
      if_true, mVis, baseModel]
    norm_num [min_def, max_def]
  have hsn : score "vision code reasoning long context cheap batch"
      "moderate" mNoVis = 8 := by
    simp only [score, codingPart, visionPart, reasonPart, longCtxPart,
      cheapPart, universalPart, budgetPart_moderate, hv, hc, hr, hl, hch,
      if_true, mNoVis, baseModel]
    norm_num [min_def, max_def]
  have hcur : currentModels tableVisionCx = [mNoVis, mVis] := by decide
  have hsl : scoredList tableVisionCx
      "vision code reasoning long context cheap batch" "moderate" =
      [(8, mNoVis), (6, mVis)] := by
    simp [scoredList, hcur, hsv, hsn]
  simp only [recommendTop, htl, hnb, hsl]
  rw [List.mergeSort_of_sorted (by decide)]
  rfl

end UMR
